import Mathlib

/-!
Verification development for the Dirt Dash racing game (src/FP/game.py).

The game's numeric code is embedded over `ℚ` (Python floats are modelled as
exact rationals; no claim here is sensitive to floating-point rounding).
The ground curve `ground_y_at` of the source uses `math.sin`; since every
claim holds uniformly in the shape of the ground curve, the embedding takes
the ground function as an explicit parameter `ground_y_at : ℚ → ℚ` wherever
the source calls the global `ground_y_at`.

Definitions follow the source names and structure: module constants, `clamp`,
the LCG `seeded_rand`, `Bike` with `update_physics` / `jump` / `on_ground`,
`BotAI.step`, and the `Game` methods `spawn_obstacles`, `update_play`
(decomposed into its per-entity pieces), `handle_obstacles` and `end_race`.
-/

/-- Config constant GRAVITY of game.py. -/
def GRAVITY : ℚ := 1500

/-- Config constant JUMP_VY of game.py. -/
def JUMP_VY : ℚ := -540

/-- Config constant MAX_SPEED of game.py. -/
def MAX_SPEED : ℚ := 270

/-- Config constant ACCEL of game.py. -/
def ACCEL : ℚ := 620

/-- Config constant BRAKE of game.py. -/
def BRAKE : ℚ := 980

/-- Config constant ROLL_DECEL of game.py. -/
def ROLL_DECEL : ℚ := 720

/-- Config constant TRACK_LENGTH of game.py. -/
def TRACK_LENGTH : ℚ := 3600

/-- Config constant OBST_ROCKS of game.py. -/
def OBST_ROCKS : ℕ := 12

/-- Config constant OBST_LOGS of game.py. -/
def OBST_LOGS : ℕ := 8

/-- Config constant OBST_RAMPS of game.py. -/
def OBST_RAMPS : ℕ := 8

/-- Utility `clamp(v, lo, hi)` of game.py. -/
def clamp (v lo hi : ℚ) : ℚ :=
  if v < lo then lo else if v > hi then hi else v

/-- One step of the LCG inside `seeded_rand`:
`state["x"] = (1103515245 * state["x"] + 12345) & 0x7fffffff`.
The mask `& 0x7fffffff` is reduction mod `2 ^ 31`. -/
def seeded_rand_next (x : ℕ) : ℕ :=
  (1103515245 * x + 12345) % 2 ^ 31

/-- The value returned by one call of the closure `rnd`:
the fresh state divided by `0x7fffffff`, a rational in `[0, 1)`. -/
def rnd_val (x : ℕ) : ℚ :=
  (x : ℚ) / (2 ^ 31 - 1)

/-- The obstacle dictionaries of game.py, as a tagged variant:
`{"type": "rock", "xw": _, "r": _}`, `{"type": "log", "xw": _, "w": _, "h": _}`,
`{"type": "ramp", "xw": _, "w": _, "h": _}`. -/
inductive Obstacle where
  | rock (xw : ℚ) (r : ℚ)
  | log (xw : ℚ) (w : ℚ) (h : ℚ)
  | ramp (xw : ℚ) (w : ℚ) (h : ℚ)
deriving DecidableEq

/-- The common `"xw"` field of an obstacle dictionary. -/
def Obstacle.xw : Obstacle → ℚ
  | .rock x _ => x
  | .log x _ _ => x
  | .ramp x _ _ => x

/-- The `Bike` entity of game.py.  The presentation-only fields `color`
and `is_bot` are omitted; all fields read by the simulation are kept. -/
structure Bike where
  name : String := "You"
  xw : ℚ := 0
  y : ℚ := 0
  vy : ℚ := 0
  speed : ℚ := 0
  engine_on : Bool := false
  finished : Bool := false
  finish_time : Option ℚ := none
  bump_cooldown : ℚ := 0
deriving DecidableEq

/-- `Bike.__init__`: fresh bike at the start line
(`y = ground_y_at(0) - 40`, everything else zeroed / cleared). -/
def Bike.init (ground_y_at : ℚ → ℚ) (name : String) : Bike :=
  { name := name, xw := 0, y := ground_y_at 0 - 40, vy := 0, speed := 0,
    engine_on := false, finished := false, finish_time := none, bump_cooldown := 0 }

/-- `Bike.on_ground`: `abs(self.y - (ground_y_at(self.xw) - 36)) < 0.2`. -/
def Bike.on_ground (ground_y_at : ℚ → ℚ) (b : Bike) : Prop :=
  |b.y - (ground_y_at b.xw - 36)| < 0.2

instance (ground_y_at : ℚ → ℚ) (b : Bike) : Decidable (b.on_ground ground_y_at) :=
  inferInstanceAs (Decidable (|b.y - (ground_y_at b.xw - 36)| < 0.2))

/-- `Bike.update_physics(dt)`: gravity on `vy`, integrate `y`, clamp to the
floor `ground_y_at(xw) - 36` zeroing `vy` on contact, then decrement
`bump_cooldown` by `dt` when it is positive. -/
def Bike.update_physics (ground_y_at : ℚ → ℚ) (dt : ℚ) (b : Bike) : Bike :=
  let vy1 := b.vy + GRAVITY * dt
  let y1 := b.y + vy1 * dt
  let floor := ground_y_at b.xw - 36
  let b1 := if y1 ≥ floor then { b with y := floor, vy := 0 } else { b with y := y1, vy := vy1 }
  if b1.bump_cooldown > 0 then { b1 with bump_cooldown := b1.bump_cooldown - dt } else b1

/-- `Bike.jump(vy)`: set vertical velocity only when on the ground. -/
def Bike.jump (ground_y_at : ℚ → ℚ) (b : Bike) (vy : ℚ) : Bike :=
  if b.on_ground ground_y_at then { b with vy := vy } else b

/-- Speed easing of `BotAI.step`: approach the target speed with asymmetric
rates (`ACCEL * 0.8` below target, `ROLL_DECEL * 0.4` above, floored at
`0.9 * target`). -/
def bot_speed_update (target_speed dt : ℚ) (b : Bike) : Bike :=
  if b.speed < target_speed then
    { b with speed := min (b.speed + ACCEL * 0.8 * dt) target_speed }
  else
    { b with speed := max (b.speed - ROLL_DECEL * 0.4 * dt) (target_speed * 0.9) }

/-- Body executed by `BotAI.step` at the first obstacle inside the look-ahead
window: when grounded, jump with a type-dependent impulse (ramps get
`JUMP_VY * 0.95`, rocks and logs `JUMP_VY * 0.88`). -/
def bot_scan_hit (ground_y_at : ℚ → ℚ) (ob : Obstacle) (b : Bike) : Bike :=
  if b.on_ground ground_y_at then
    match ob with
    | .ramp _ _ _ => b.jump ground_y_at (JUMP_VY * 0.95)
    | _ => b.jump ground_y_at (JUMP_VY * 0.88)
  else b

/-- Obstacle scan of `BotAI.step`: walk the obstacle list in order, stop at
the first obstacle with `0 < dx < look` (`break` leaves the loop whether or
not grounded). -/
def bot_scan (ground_y_at : ℚ → ℚ) (look : ℚ) : List Obstacle → Bike → Bike
  | [], b => b
  | ob :: rest, b =>
      if 0 < ob.xw - b.xw ∧ ob.xw - b.xw < look then bot_scan_hit ground_y_at ob b
      else bot_scan ground_y_at look rest b

/-- `BotAI.step(dt, obstacles)`: return unchanged when finished, else ease
speed toward target, scan for a jump, advance `xw` by the updated speed,
and run physics. -/
def BotAI.step (ground_y_at : ℚ → ℚ) (target_speed jump_bias dt : ℚ)
    (obstacles : List Obstacle) (b : Bike) : Bike :=
  if b.finished then b
  else
    let b1 := bot_speed_update target_speed dt b
    let b2 := bot_scan ground_y_at (140 + jump_bias) obstacles b1
    let b3 := { b2 with xw := b2.xw + b2.speed * dt }
    b3.update_physics ground_y_at dt

/-- The held-key state read by `Game.update_play`. -/
structure Keys where
  right : Bool := false
  left : Bool := false
deriving DecidableEq

/-- The engine/input speed update at the top of `Game.update_play`. -/
def player_speed_update (keys : Keys) (dt : ℚ) (player : Bike) : Bike :=
  if !player.engine_on then
    { player with speed := max 0 (player.speed - ROLL_DECEL * dt) }
  else if keys.right then
    { player with speed := clamp (player.speed + ACCEL * dt) 0 MAX_SPEED }
  else if keys.left then
    { player with speed := clamp (player.speed - BRAKE * dt) 0 MAX_SPEED }
  else
    { player with speed := clamp (player.speed - ROLL_DECEL * dt) 0 MAX_SPEED }

/-- Loop body of `Game.handle_obstacles` for a single obstacle:
rocks and logs bump (penalty, upward kick, cooldown reset) when within
`|dx| ≤ 30`, not cleared vertically, and cooldown expired; ramps launch
when within `|dx| ≤ 30`, inside the mouth span ± 10, and grounded. -/
def handle_ob (ground_y_at : ℚ → ℚ) (bike : Bike) (ob : Obstacle) : Bike :=
  let dx := ob.xw - bike.xw
  if -30 ≤ dx ∧ dx ≤ 30 then
    let gy := ground_y_at ob.xw
    match ob with
    | .rock _ r =>
        let top := gy - r
        if bike.y ≥ top - 10 ∧ bike.bump_cooldown ≤ 0 then
          { bike with speed := max (bike.speed * 0.6) (bike.speed - 80),
                      vy := -120, bump_cooldown := 0.6 }
        else bike
    | .log _ _ h =>
        let top := gy - h
        if bike.y ≥ top - 10 ∧ bike.bump_cooldown ≤ 0 then
          { bike with speed := max (bike.speed * 0.7) (bike.speed - 90),
                      vy := -150, bump_cooldown := 0.6 }
        else bike
    | .ramp oxw w _ =>
        let mouth_left := oxw - w / 2
        let mouth_right := oxw + w / 2
        if mouth_left - 10 ≤ bike.xw ∧ bike.xw ≤ mouth_right + 10 ∧ bike.on_ground ground_y_at then
          { bike with vy := JUMP_VY * 0.9 }
        else bike
  else bike

/-- `Game.handle_obstacles(bike)`: fold the single-obstacle body over the
whole obstacle list (the Python loop has no break). -/
def Game.handle_obstacles (ground_y_at : ℚ → ℚ) (obstacles : List Obstacle) (bike : Bike) : Bike :=
  obstacles.foldl (handle_ob ground_y_at) bike

/-- The player part of one `Game.update_play` frame up to but excluding
`handle_obstacles`: speed update, `xw += speed * dt`, `update_physics`. -/
def pre_handler (ground_y_at : ℚ → ℚ) (keys : Keys) (dt : ℚ) (player : Bike) : Bike :=
  let p1 := player_speed_update keys dt player
  let p2 := { p1 with xw := p1.xw + p1.speed * dt }
  p2.update_physics ground_y_at dt

/-- The player part of one `Game.update_play` frame: speed update, advance,
physics, then obstacle handling. -/
def player_frame_move (ground_y_at : ℚ → ℚ) (obstacles : List Obstacle)
    (keys : Keys) (dt : ℚ) (player : Bike) : Bike :=
  Game.handle_obstacles ground_y_at obstacles (pre_handler ground_y_at keys dt player)

/-- Iterated player frames, one `(keys, dt)` pair per frame. -/
def play_frames (ground_y_at : ℚ → ℚ) (obstacles : List Obstacle) :
    List (Keys × ℚ) → Bike → Bike
  | [], b => b
  | f :: fs, b =>
      play_frames ground_y_at obstacles fs (player_frame_move ground_y_at obstacles f.1 f.2 b)

/-- Finish check of `Game.update_play` for one entity:
`if (not b.finished) and b.xw >= TRACK_LENGTH: finished = True; finish_time = time_elapsed`. -/
def finish_check (time_elapsed : ℚ) (b : Bike) : Bike :=
  if ¬b.finished ∧ TRACK_LENGTH ≤ b.xw then
    { b with finished := true, finish_time := some time_elapsed }
  else b

/-- The finish check iterated over a trace of frames; each frame supplies the
entity's position and the race's elapsed time at the moment of the check
(the rest of the frame is abstracted into those two inputs). -/
def finish_run : List (ℚ × ℚ) → Bike → Bike
  | [], b => b
  | f :: fs, b => finish_run fs (finish_check f.2 { b with xw := f.1 })

/-- The finish-marking pass of `Game.update_play` over all entities. -/
def mark_finish (time_elapsed : ℚ) (bikes : List Bike) : List Bike :=
  bikes.map (finish_check time_elapsed)

/-- The race-over test of `Game.update_play`:
`all(b.finished or b.xw >= TRACK_LENGTH for b in everyone)`. -/
def race_done (bikes : List Bike) : Bool :=
  bikes.all fun b => b.finished || decide (TRACK_LENGTH ≤ b.xw)

/-- Ascending comparison on scored results, the sort key of `end_race`. -/
def timeLe (a b : String × ℚ) : Prop := a.2 ≤ b.2

instance : DecidableRel timeLe := fun a b => inferInstanceAs (Decidable (a.2 ≤ b.2))

instance : IsTotal (String × ℚ) timeLe := ⟨fun a b => le_total a.2 b.2⟩

instance : IsTrans (String × ℚ) timeLe := ⟨fun _ _ _ hab hbc => le_trans hab hbc⟩

/-- Ranking step of `Game.end_race`: score every entity at
`finish_time if finish_time is not None else time_elapsed` and sort
ascending by time (Python `list.sort` is stable; insertion sort models it). -/
def end_race_results (time_elapsed : ℚ) (bikes : List Bike) : List (String × ℚ) :=
  List.insertionSort timeLe (bikes.map fun b => (b.name, b.finish_time.getD time_elapsed))

/-- Stats step of `Game.end_race`: `total_races += 1`, and `wins += 1` iff
the ranked list is nonempty and its head's name is `"You"`. -/
def end_race_stats (results : List (String × ℚ)) (total_races wins : ℕ) : ℕ × ℕ :=
  let total2 := total_races + 1
  let wins2 :=
    match results.head? with
    | some nt => if nt.1 = "You" then wins + 1 else wins
    | none => wins
  (total2, wins2)

/-- Ascending comparison on obstacle positions, the sort key of
`spawn_obstacles`. -/
def obLe (a b : Obstacle) : Prop := a.xw ≤ b.xw

instance : DecidableRel obLe := fun a b => inferInstanceAs (Decidable (a.xw ≤ b.xw))

instance : IsTotal Obstacle obLe := ⟨fun a b => le_total a.xw b.xw⟩

instance : IsTrans Obstacle obLe := ⟨fun _ _ _ hab hbc => le_trans hab hbc⟩

/-- Generate one obstacle per index, threading the LCG state: each index
consumes exactly one `rnd()` call, in list order. -/
def gen_thread (mk : ℕ → ℚ → Obstacle) : List ℕ → ℕ → List Obstacle × ℕ
  | [], s => ([], s)
  | n :: ns, s =>
      let s1 := seeded_rand_next s
      let (rest, s2) := gen_thread mk ns s1
      (mk n (rnd_val s1) :: rest, s2)

/-- Rock `n` of `spawn_obstacles`:
`xw = 240 + (TRACK_LENGTH - 480) * (n + 1) / (OBST_ROCKS + 1) + int(rnd() * 53) - 26`,
`r = 10 + (n * 31) % 7`. -/
def rock_mk (n : ℕ) (v : ℚ) : Obstacle :=
  .rock (240 + (TRACK_LENGTH - 480) * ((n : ℚ) + 1) / ((OBST_ROCKS : ℚ) + 1) + (⌊v * 53⌋ : ℚ) - 26)
    ((10 + (n * 31) % 7 : ℕ) : ℚ)

/-- Log `n` of `spawn_obstacles`:
`xw = 400 + (TRACK_LENGTH - 800) * (n + 1) / (OBST_LOGS + 1) + int(rnd() * 73) - 36`,
`w = 56 + (n * 13) % 16`, `h = 12`. -/
def log_mk (n : ℕ) (v : ℚ) : Obstacle :=
  .log (400 + (TRACK_LENGTH - 800) * ((n : ℚ) + 1) / ((OBST_LOGS : ℚ) + 1) + (⌊v * 73⌋ : ℚ) - 36)
    ((56 + (n * 13) % 16 : ℕ) : ℚ) 12

/-- Ramp `n` of `spawn_obstacles`:
`xw = 350 + (TRACK_LENGTH - 700) * (n + 1) / (OBST_RAMPS + 1) + int(rnd() * 61) - 30`,
`w = 84`, `h = 40`. -/
def ramp_mk (n : ℕ) (v : ℚ) : Obstacle :=
  .ramp (350 + (TRACK_LENGTH - 700) * ((n : ℚ) + 1) / ((OBST_RAMPS : ℚ) + 1) + (⌊v * 61⌋ : ℚ) - 30)
    84 40

/-- `Game.spawn_obstacles`, parametrised by the LCG seed (the source calls it
with the fixed seed 1337): rocks, then logs, then ramps, one `rnd()` call
each in that order, finally sorted ascending by `xw`. -/
def spawn_obstacles (seed : ℕ) : List Obstacle :=
  let s0 := seed % 2 ^ 31
  let rocks := gen_thread rock_mk (List.range OBST_ROCKS) s0
  let logs := gen_thread log_mk (List.range OBST_LOGS) rocks.2
  let ramps := gen_thread ramp_mk (List.range OBST_RAMPS) logs.2
  List.insertionSort obLe (rocks.1 ++ logs.1 ++ ramps.1)

/-- The race states of game.py (`self.state`). -/
inductive RState where
  | HOME
  | GRID
  | PLAY
  | PAUSE
  | END
deriving DecidableEq

/-- The state-transition logic at the top of `Game.draw_grid_overlay`:
`ms_left = int(max(0, (countdown_end - now) * 1000))`; when `ms_left == 0`
and the state is GRID, set state to PLAY and force the engine on. -/
def draw_grid_overlay_transition (now countdown_end : ℚ) (state : RState) (engine_on : Bool) :
    RState × Bool :=
  let ms_left : ℤ := ⌊max 0 ((countdown_end - now) * 1000)⌋
  if ms_left = 0 ∧ state = RState.GRID then (RState.PLAY, true) else (state, engine_on)

/-!
Field-preservation lemmas about the individual update steps, used to settle
the claims below.
-/

theorem update_physics_xw (ground_y_at : ℚ → ℚ) (dt : ℚ) (b : Bike) :
    (b.update_physics ground_y_at dt).xw = b.xw := by
  unfold Bike.update_physics
  dsimp only
  split <;> split <;> rfl

theorem update_physics_speed (ground_y_at : ℚ → ℚ) (dt : ℚ) (b : Bike) :
    (b.update_physics ground_y_at dt).speed = b.speed := by
  unfold Bike.update_physics
  dsimp only
  split <;> split <;> rfl

theorem update_physics_cd (ground_y_at : ℚ → ℚ) (dt : ℚ) (b : Bike) :
    (b.update_physics ground_y_at dt).bump_cooldown =
      if 0 < b.bump_cooldown then b.bump_cooldown - dt else b.bump_cooldown := by
  unfold Bike.update_physics
  dsimp only
  split <;> split <;> rfl

theorem jump_xw (ground_y_at : ℚ → ℚ) (b : Bike) (v : ℚ) :
    (b.jump ground_y_at v).xw = b.xw := by
  unfold Bike.jump
  split <;> rfl

theorem jump_speed (ground_y_at : ℚ → ℚ) (b : Bike) (v : ℚ) :
    (b.jump ground_y_at v).speed = b.speed := by
  unfold Bike.jump
  split <;> rfl

theorem player_speed_update_xw (keys : Keys) (dt : ℚ) (b : Bike) :
    (player_speed_update keys dt b).xw = b.xw := by
  unfold player_speed_update
  split_ifs <;> rfl

theorem player_speed_update_cd (keys : Keys) (dt : ℚ) (b : Bike) :
    (player_speed_update keys dt b).bump_cooldown = b.bump_cooldown := by
  unfold player_speed_update
  split_ifs <;> rfl

theorem bot_speed_update_xw (target_speed dt : ℚ) (b : Bike) :
    (bot_speed_update target_speed dt b).xw = b.xw := by
  unfold bot_speed_update
  split <;> rfl

theorem bot_scan_xw_speed (ground_y_at : ℚ → ℚ) (look : ℚ) (obs : List Obstacle) (b : Bike) :
    (bot_scan ground_y_at look obs b).xw = b.xw ∧
    (bot_scan ground_y_at look obs b).speed = b.speed := by
  induction obs with
  | nil => exact ⟨rfl, rfl⟩
  | cons ob rest ih =>
      rw [bot_scan]
      split
      · unfold bot_scan_hit
        split
        · cases ob <;> exact ⟨jump_xw .., jump_speed ..⟩
        · exact ⟨rfl, rfl⟩
      · exact ih

theorem handle_ob_xw (ground_y_at : ℚ → ℚ) (b : Bike) (ob : Obstacle) :
    (handle_ob ground_y_at b ob).xw = b.xw := by
  cases ob <;> (unfold handle_ob; dsimp only; split_ifs <;> rfl)

theorem handle_obstacles_xw (ground_y_at : ℚ → ℚ) (obs : List Obstacle) (b : Bike) :
    (Game.handle_obstacles ground_y_at obs b).xw = b.xw := by
  induction obs generalizing b with
  | nil => rfl
  | cons ob rest ih =>
      simp only [Game.handle_obstacles, List.foldl_cons] at *
      exact (ih _).trans (handle_ob_xw ..)

theorem handle_ob_cd_pos (ground_y_at : ℚ → ℚ) (b : Bike) (ob : Obstacle)
    (h : 0 < b.bump_cooldown) :
    (handle_ob ground_y_at b ob).speed = b.speed ∧
    (handle_ob ground_y_at b ob).bump_cooldown = b.bump_cooldown := by
  have hno : ¬b.bump_cooldown ≤ 0 := not_le.mpr h
  cases ob <;> (unfold handle_ob; dsimp only; split_ifs <;> first | exact ⟨rfl, rfl⟩ | tauto)

theorem handle_obstacles_cd_pos (ground_y_at : ℚ → ℚ) (obs : List Obstacle) (b : Bike)
    (h : 0 < b.bump_cooldown) :
    (Game.handle_obstacles ground_y_at obs b).speed = b.speed ∧
    (Game.handle_obstacles ground_y_at obs b).bump_cooldown = b.bump_cooldown := by
  induction obs generalizing b with
  | nil => exact ⟨rfl, rfl⟩
  | cons ob rest ih =>
      have h1 := handle_ob_cd_pos ground_y_at b ob h
      have h2 := ih (handle_ob ground_y_at b ob) (h1.2 ▸ h)
      simp only [Game.handle_obstacles, List.foldl_cons] at *
      exact ⟨h2.1.trans h1.1, h2.2.trans h1.2⟩

theorem handle_ob_cd_cases (ground_y_at : ℚ → ℚ) (b : Bike) (ob : Obstacle) :
    (handle_ob ground_y_at b ob).bump_cooldown = b.bump_cooldown ∨
    (handle_ob ground_y_at b ob).bump_cooldown = 0.6 := by
  cases ob <;> (unfold handle_ob; dsimp only; split_ifs <;> first | exact Or.inl rfl | exact Or.inr rfl)

theorem handle_obstacles_cd_cases (ground_y_at : ℚ → ℚ) (obs : List Obstacle) (b : Bike) :
    (Game.handle_obstacles ground_y_at obs b).bump_cooldown = b.bump_cooldown ∨
    (Game.handle_obstacles ground_y_at obs b).bump_cooldown = 0.6 := by
  induction obs generalizing b with
  | nil => exact Or.inl rfl
  | cons ob rest ih =>
      simp only [Game.handle_obstacles, List.foldl_cons] at *
      rcases ih (handle_ob ground_y_at b ob) with h | h
      · rcases handle_ob_cd_cases ground_y_at b ob with h2 | h2
        · exact Or.inl (h.trans h2)
        · exact Or.inr (h.trans h2)
      · exact Or.inr h

/-!
Concrete objects used by witnesses and counterexamples.
-/

/-- Constant ground curve used to instantiate `ground_y_at` at concrete inputs
(`GROUND_BASE_Y = 470` with the two sine terms flattened). -/
def gy470 : ℚ → ℚ := fun _ => 470

/-- Concrete grounded player bike (floor at `470 - 36 = 434`). -/
def bikeW : Bike := { name := "You", xw := 0, y := 434, vy := 0, speed := 50 }

/-- Concrete bot that has already finished, still carrying speed 100. -/
def bot_finished : Bike :=
  { name := "Bot 1", xw := 0, y := 434, vy := 0, speed := 100, engine_on := false,
    finished := true, finish_time := some 10, bump_cooldown := 0 }

/-- Concrete unfinished bot. -/
def botW : Bike := { name := "Bot 2", xw := 5, y := 434, vy := 0, speed := 100 }

/-- Concrete bike with a small positive bump cooldown. -/
def bike_cd : Bike := { name := "You", bump_cooldown := 1/100 }

/-- C1 counterexample: a bot that has already finished is NOT advanced by
`speed * dt` — `BotAI.step` returns early on `finished`, leaving `xw`
unchanged, contradicting the claim's "unconditionally — in particular also on
frames where the entity has already finished". -/
theorem C1_bot_halts_when_finished_cex :
    bot_finished.finished = true ∧
    (BotAI.step gy470 220 0 (1/60) [] bot_finished).xw ≠
      bot_finished.xw + bot_finished.speed * (1/60) := by
  refine ⟨rfl, ?_⟩
  have hs : BotAI.step gy470 220 0 (1/60) [] bot_finished = bot_finished := by
    have hfin : bot_finished.finished = true := rfl
    unfold BotAI.step
    rw [if_pos hfin]
  rw [hs]
  norm_num [bot_finished]

/-- C1 (amended): while the race is in Play, the player's horizontal position
is advanced by `speed * dt` on every frame unconditionally (also after
finishing); a bot's horizontal position is advanced by `speed * dt` exactly on
frames where it has not yet finished, and a finished bot is left entirely
unchanged by its step.  `speed` is the frame's updated speed in both cases. -/
theorem C1_horizontal_advance (ground_y_at : ℚ → ℚ) (obstacles : List Obstacle)
    (keys : Keys) (target_speed jump_bias dt : ℚ) (p b : Bike) :
    (player_frame_move ground_y_at obstacles keys dt p).xw
        = p.xw + (player_speed_update keys dt p).speed * dt ∧
    (b.finished = false →
      (BotAI.step ground_y_at target_speed jump_bias dt obstacles b).xw
        = b.xw + (bot_speed_update target_speed dt b).speed * dt) ∧
    (b.finished = true →
      BotAI.step ground_y_at target_speed jump_bias dt obstacles b = b) := by
  refine ⟨?_, ?_, ?_⟩
  · unfold player_frame_move pre_handler
    rw [handle_obstacles_xw, update_physics_xw]
    dsimp only
    rw [player_speed_update_xw]
  · intro hf
    unfold BotAI.step
    rw [if_neg (by simp [hf])]
    dsimp only
    rw [update_physics_xw]
    have h2 := bot_scan_xw_speed ground_y_at (140 + jump_bias) obstacles
      (bot_speed_update target_speed dt b)
    dsimp only
    rw [h2.1, h2.2, bot_speed_update_xw]
  · intro hf
    unfold BotAI.step
    rw [if_pos hf]

/-- Witness for C1: the amended bot clause evaluated at a concrete
unfinished bot. -/
theorem C1_horizontal_advance_witness :
    (BotAI.step gy470 220 0 (1/60) [] botW).xw
      = botW.xw + (bot_speed_update 220 (1/60) botW).speed * (1/60) :=
  (C1_horizontal_advance gy470 [] ⟨false, false⟩ 220 0 (1/60) botW botW).2.1 rfl

/-- C2: after one `update_physics` step with any `dt ≥ 0`, the bike's
vertical position is at or above the ground-derived floor at its current x
(screen coordinates: `y ≤ ground_y_at(xw) - 36`), and if the step left it in
contact with the floor its vertical velocity is zero. -/
theorem C2_floor_clamp (ground_y_at : ℚ → ℚ) (dt : ℚ) (b : Bike) (_hdt : 0 ≤ dt) :
    (b.update_physics ground_y_at dt).y ≤ ground_y_at (b.update_physics ground_y_at dt).xw - 36 ∧
    ((b.update_physics ground_y_at dt).y = ground_y_at (b.update_physics ground_y_at dt).xw - 36 →
      (b.update_physics ground_y_at dt).vy = 0) := by
  rw [update_physics_xw]
  unfold Bike.update_physics
  dsimp only
  split
  case isTrue h =>
    split <;> exact ⟨le_refl _, fun _ => rfl⟩
  case isFalse h =>
    have hlt : b.y + (b.vy + GRAVITY * dt) * dt < ground_y_at b.xw - 36 := not_le.mp h
    split <;> exact ⟨le_of_lt hlt, fun he => absurd he (ne_of_lt hlt)⟩

/-- Witness for C2 at a concrete grounded bike and `dt = 1/60`. -/
theorem C2_floor_clamp_witness :
    (0 : ℚ) ≤ 1/60 ∧
    ((bikeW.update_physics gy470 (1/60)).y ≤ gy470 (bikeW.update_physics gy470 (1/60)).xw - 36 ∧
      ((bikeW.update_physics gy470 (1/60)).y = gy470 (bikeW.update_physics gy470 (1/60)).xw - 36 →
        (bikeW.update_physics gy470 (1/60)).vy = 0)) :=
  ⟨by norm_num, C2_floor_clamp gy470 (1/60) bikeW (by norm_num)⟩

/-- C8: when the countdown deadline has elapsed while the state is GRID, the
overlay logic transitions to PLAY and force-sets the engine flag to on,
whatever its previous value; and once the state is PLAY the same logic never
fires again (so the transition happens exactly once). -/
theorem C8_grid_to_play (now countdown_end : ℚ) (engine_on : Bool)
    (h : countdown_end ≤ now) :
    draw_grid_overlay_transition now countdown_end RState.GRID engine_on
        = (RState.PLAY, true) ∧
    ∀ now2 cd2 engine2,
      draw_grid_overlay_transition now2 cd2 RState.PLAY engine2 = (RState.PLAY, engine2) := by
  constructor
  · have hx : (countdown_end - now) * 1000 ≤ 0 := by nlinarith
    have hm : max 0 ((countdown_end - now) * 1000) = 0 := max_eq_left hx
    simp only [draw_grid_overlay_transition, hm, Int.floor_zero]
    simp
  · intro now2 cd2 engine2
    simp only [draw_grid_overlay_transition]
    exact if_neg fun hc => RState.noConfusion hc.2

/-- Witness for C8: deadline at 3, current time 5, engine previously off. -/
theorem C8_grid_to_play_witness :
    draw_grid_overlay_transition 5 3 RState.GRID false = (RState.PLAY, true) :=
  (C8_grid_to_play 5 3 false (by norm_num)).1

/-- C9 counterexample: the cooldown timer does drop below zero — starting
from the non-negative value `1/100`, one physics step with `dt = 1/60`
leaves `bump_cooldown = 1/100 - 1/60 < 0`, refuting "remains ≥ 0 after every
physics step". -/
theorem C9_cooldown_negative_cex :
    0 ≤ bike_cd.bump_cooldown ∧
    (bike_cd.update_physics gy470 (1/60)).bump_cooldown < 0 := by
  constructor
  · norm_num [bike_cd]
  · rw [update_physics_cd]
    norm_num [bike_cd]

/-- C9 (amended): the cooldown timer can undershoot zero by at most the
current frame's `dt`: from a value ≥ 0 a physics step leaves it ≥ `-dt`; once
it is ≤ 0 a physics step no longer changes it; and the obstacle handler
either leaves it unchanged or resets it to the positive constant 0.6. -/
theorem C9_cooldown_bound (ground_y_at : ℚ → ℚ) (dt : ℚ) (b : Bike) (hdt : 0 ≤ dt) :
    (0 ≤ b.bump_cooldown → -dt ≤ (b.update_physics ground_y_at dt).bump_cooldown) ∧
    (b.bump_cooldown ≤ 0 → (b.update_physics ground_y_at dt).bump_cooldown = b.bump_cooldown) ∧
    ∀ obstacles,
      (Game.handle_obstacles ground_y_at obstacles b).bump_cooldown = b.bump_cooldown ∨
      (Game.handle_obstacles ground_y_at obstacles b).bump_cooldown = 0.6 := by
  refine ⟨?_, ?_, fun obstacles => handle_obstacles_cd_cases ground_y_at obstacles b⟩
  · intro h0
    rw [update_physics_cd]
    split
    · linarith
    · linarith
  · intro h0
    rw [update_physics_cd, if_neg (not_lt.mpr h0)]

/-- Witness for C9 at the concrete bike with cooldown `1/100` and `dt = 1/60`. -/
theorem C9_cooldown_bound_witness :
    -(1/60 : ℚ) ≤ (bike_cd.update_physics gy470 (1/60)).bump_cooldown :=
  (C9_cooldown_bound gy470 (1/60) bike_cd (by norm_num)).1 (by norm_num [bike_cd])

/-- Concrete ramp obstacle (`w = 84`, `h = 40` as generated by
`spawn_obstacles`). -/
def rampW : Obstacle := .ramp 100 84 40

/-- Concrete grounded bike inside the ramp's footprint ± 10 but outside the
handler's ±30 scan band (`dx = 40`). -/
def bikeRamp : Bike := { name := "You", xw := 60, y := 434, vy := 0, speed := 50 }

/-- Concrete grounded bike inside both the ramp's footprint and the ±30
scan band (`dx = 10`). -/
def bikeOnRamp : Bike := { name := "You", xw := 90, y := 434, vy := 0, speed := 50 }

/-- C3 counterexample: a grounded entity whose position lies within the
ramp's footprint extended by the ±10 margin (48 ≤ 60 ≤ 152) receives NO
launch, because the handler first requires `|dx| ≤ 30` and here `dx = 40`;
its vertical velocity stays 0 instead of becoming `JUMP_VY * 0.9`. -/
theorem C3_ramp_outside_band_cex :
    bikeRamp.on_ground gy470 ∧
    (100 - 84/2 - 10 ≤ bikeRamp.xw ∧ bikeRamp.xw ≤ 100 + 84/2 + 10) ∧
    (Game.handle_obstacles gy470 [rampW] bikeRamp).vy ≠ JUMP_VY * 0.9 := by
  refine ⟨by norm_num [Bike.on_ground, bikeRamp, gy470], by norm_num [bikeRamp], ?_⟩
  have hun : Game.handle_obstacles gy470 [rampW] bikeRamp = bikeRamp := by
    show handle_ob gy470 bikeRamp rampW = bikeRamp
    unfold handle_ob
    rw [if_neg (by norm_num [rampW, bikeRamp, Obstacle.xw])]
  rw [hun]
  norm_num [bikeRamp, JUMP_VY]

/-- C3 (amended): whenever the collision handler processes a ramp obstacle
that lies within the handler's ±30 scan band of the entity AND the entity is
grounded with its position inside the ramp's footprint extended by the ±10
margin, the entity's vertical velocity is set to `JUMP_VY * 0.9` and nothing
else changes — in particular no cooldown gate is consulted and no speed
penalty is applied. -/
theorem C3_ramp_launch (ground_y_at : ℚ → ℚ) (b : Bike) (oxw w h : ℚ)
    (hdx : -30 ≤ oxw - b.xw ∧ oxw - b.xw ≤ 30)
    (hfoot : oxw - w / 2 - 10 ≤ b.xw ∧ b.xw ≤ oxw + w / 2 + 10)
    (hg : b.on_ground ground_y_at) :
    Game.handle_obstacles ground_y_at [Obstacle.ramp oxw w h] b
      = { b with vy := JUMP_VY * 0.9 } := by
  show handle_ob ground_y_at b (Obstacle.ramp oxw w h) = _
  unfold handle_ob
  dsimp only [Obstacle.xw]
  rw [if_pos hdx]
  rw [if_pos ⟨hfoot.1, hfoot.2, hg⟩]

/-- Witness for C3 (amended) at a concrete grounded bike 10 units before the
ramp center. -/
theorem C3_ramp_launch_witness :
    Game.handle_obstacles gy470 [Obstacle.ramp 100 84 40] bikeOnRamp
      = { bikeOnRamp with vy := JUMP_VY * 0.9 } :=
  C3_ramp_launch gy470 bikeOnRamp 100 84 40 (by norm_num [bikeOnRamp])
    (by norm_num [bikeOnRamp]) (by norm_num [Bike.on_ground, bikeOnRamp, gy470])

theorem finish_run_of_finished (frames : List (ℚ × ℚ)) (b : Bike) (h : b.finished = true) :
    (finish_run frames b).finished = true ∧ (finish_run frames b).finish_time = b.finish_time := by
  induction frames generalizing b with
  | nil => exact ⟨h, rfl⟩
  | cons f fs ih =>
      rw [finish_run]
      have hc : finish_check f.2 { b with xw := f.1 } = { b with xw := f.1 } := by
        unfold finish_check
        rw [if_neg]
        rintro ⟨hnf, -⟩
        exact hnf h
      rw [hc]
      exact ih { b with xw := f.1 } h

/-- C4: over any trace of Play frames (each supplying the entity's position
and the elapsed race time at that frame), an initially unfinished entity's
`finish_time` ends up equal to the elapsed time of the FIRST frame whose
position reaches `TRACK_LENGTH` (and `none` if no frame does), and its
finished flag is set exactly when such a frame exists — later frames never
change it even though positions may keep increasing. -/
theorem C4_finish_once (frames : List (ℚ × ℚ)) (b : Bike)
    (hf : b.finished = false) (ht : b.finish_time = none) :
    (finish_run frames b).finish_time
        = (frames.find? fun f => decide (TRACK_LENGTH ≤ f.1)).map Prod.snd ∧
    (finish_run frames b).finished
        = (frames.find? fun f => decide (TRACK_LENGTH ≤ f.1)).isSome := by
  induction frames generalizing b with
  | nil => simp [finish_run, ht, hf]
  | cons f fs ih =>
      rw [finish_run]
      by_cases hL : TRACK_LENGTH ≤ f.1
      · have hc : finish_check f.2 { b with xw := f.1 } =
            { b with xw := f.1, finished := true, finish_time := some f.2 } := by
          unfold finish_check
          rw [if_pos ⟨by simp [hf], hL⟩]
        rw [hc]
        have h2 := finish_run_of_finished fs
          { b with xw := f.1, finished := true, finish_time := some f.2 } rfl
        have hfind : List.find? (fun g : ℚ × ℚ => decide (TRACK_LENGTH ≤ g.1)) (f :: fs)
            = some f := by
          simp [hL]
        rw [hfind]
        exact ⟨h2.2, h2.1⟩
      · have hc : finish_check f.2 { b with xw := f.1 } = { b with xw := f.1 } := by
          unfold finish_check
          rw [if_neg]
          rintro ⟨-, hcl⟩
          exact hL hcl
        rw [hc]
        have hfind : List.find? (fun g : ℚ × ℚ => decide (TRACK_LENGTH ≤ g.1)) (f :: fs)
            = List.find? (fun g : ℚ × ℚ => decide (TRACK_LENGTH ≤ g.1)) fs := by
          simp [hL]
        rw [hfind]
        exact ih { b with xw := f.1 } hf ht

/-- Concrete finish trace: below the line at elapsed 10, first at/past the
line at elapsed 10.1, still past it at elapsed 10.2. -/
def frames_w : List (ℚ × ℚ) := [(3599, 10), (3605, 101/10), (3700, 102/10)]

/-- Witness for C4 at the concrete trace and a fresh bike. -/
theorem C4_finish_once_witness :
    (finish_run frames_w bikeW).finish_time
        = (frames_w.find? fun f => decide (TRACK_LENGTH ≤ f.1)).map Prod.snd ∧
    (finish_run frames_w bikeW).finished
        = (frames_w.find? fun f => decide (TRACK_LENGTH ≤ f.1)).isSome :=
  C4_finish_once frames_w bikeW rfl rfl

theorem pre_handler_cd (ground_y_at : ℚ → ℚ) (keys : Keys) (dt : ℚ) (b : Bike)
    (h : 0 < b.bump_cooldown) :
    (pre_handler ground_y_at keys dt b).bump_cooldown = b.bump_cooldown - dt := by
  unfold pre_handler
  dsimp only
  rw [update_physics_cd]
  dsimp only
  rw [player_speed_update_cd, if_pos h]

theorem sum_take_le (l : List ℚ) (hnn : ∀ x ∈ l, 0 ≤ x) (k : ℕ) :
    (l.take k).sum ≤ l.sum := by
  conv_rhs => rw [← List.take_append_drop k l]
  rw [List.sum_append]
  have h0 : 0 ≤ (l.drop k).sum :=
    List.sum_nonneg fun x hx => hnn x (List.mem_of_mem_drop hx)
  linarith

theorem play_frames_cd (ground_y_at : ℚ → ℚ) (obs : List Obstacle)
    (frames : List (Keys × ℚ)) (b : Bike)
    (hnn : ∀ f ∈ frames, 0 ≤ f.2)
    (hsum : (frames.map Prod.snd).sum < b.bump_cooldown) :
    (play_frames ground_y_at obs frames b).bump_cooldown
      = b.bump_cooldown - (frames.map Prod.snd).sum := by
  induction frames generalizing b with
  | nil => simp [play_frames]
  | cons f fs ih =>
      have hsumc : (List.map Prod.snd (f :: fs)).sum = f.2 + (fs.map Prod.snd).sum := by
        simp
      have hrest : 0 ≤ (fs.map Prod.snd).sum := by
        refine List.sum_nonneg fun x hx => ?_
        simp only [List.mem_map] at hx
        obtain ⟨g, hg, rfl⟩ := hx
        exact hnn g (List.mem_cons_of_mem _ hg)
      have hf2 : 0 ≤ f.2 := hnn f (List.mem_cons_self _ _)
      have hpos : 0 < b.bump_cooldown := by rw [hsumc] at hsum; linarith
      have hcd1 : (player_frame_move ground_y_at obs f.1 f.2 b).bump_cooldown
          = b.bump_cooldown - f.2 := by
        unfold player_frame_move
        have hpre := pre_handler_cd ground_y_at f.1 f.2 b hpos
        have hh := handle_obstacles_cd_pos ground_y_at obs (pre_handler ground_y_at f.1 f.2 b)
          (by rw [hpre]; rw [hsumc] at hsum; linarith)
        rw [hh.2, hpre]
      rw [play_frames]
      have ih2 := ih (player_frame_move ground_y_at obs f.1 f.2 b)
        (fun g hg => hnn g (List.mem_cons_of_mem _ hg))
        (by rw [hcd1]; rw [hsumc] at hsum; linarith)
      rw [ih2, hcd1, hsumc]
      ring

/-- C7: from the moment a rock/log penalty resets the cooldown to 0.6, along
any run of subsequent Play frames with non-negative time steps whose total
simulated time stays below 0.6 seconds, the handler's rock/log gate is still
closed at every one of those frames (the state entering each frame's
`handle_obstacles` has positive cooldown) and the handler applies no penalty
there: it leaves both the speed and the cooldown of its input unchanged.
At an exact 60 Hz cadence this covers every frame of the 36-frame window
`0.6 = 36 * (1/60)` that starts at the penalty frame. -/
theorem C7_cooldown_window (ground_y_at : ℚ → ℚ) (obstacles : List Obstacle)
    (frames : List (Keys × ℚ)) (b : Bike)
    (hcd : b.bump_cooldown = 0.6)
    (hnn : ∀ f ∈ frames, 0 ≤ f.2)
    (hsum : (frames.map Prod.snd).sum < 0.6) :
    ∀ i (hi : i < frames.length),
      0 < (pre_handler ground_y_at (frames.get ⟨i, hi⟩).1 (frames.get ⟨i, hi⟩).2
            (play_frames ground_y_at obstacles (frames.take i) b)).bump_cooldown ∧
      (Game.handle_obstacles ground_y_at obstacles
          (pre_handler ground_y_at (frames.get ⟨i, hi⟩).1 (frames.get ⟨i, hi⟩).2
            (play_frames ground_y_at obstacles (frames.take i) b))).speed
        = (pre_handler ground_y_at (frames.get ⟨i, hi⟩).1 (frames.get ⟨i, hi⟩).2
            (play_frames ground_y_at obstacles (frames.take i) b)).speed ∧
      (Game.handle_obstacles ground_y_at obstacles
          (pre_handler ground_y_at (frames.get ⟨i, hi⟩).1 (frames.get ⟨i, hi⟩).2
            (play_frames ground_y_at obstacles (frames.take i) b))).bump_cooldown
        = (pre_handler ground_y_at (frames.get ⟨i, hi⟩).1 (frames.get ⟨i, hi⟩).2
            (play_frames ground_y_at obstacles (frames.take i) b)).bump_cooldown := by
  intro i hi
  have hmapnn : ∀ x ∈ frames.map Prod.snd, 0 ≤ x := by
    intro x hx
    simp only [List.mem_map] at hx
    obtain ⟨g, hg, rfl⟩ := hx
    exact hnn g hg
  have htake_nn : ∀ f ∈ frames.take i, 0 ≤ f.2 :=
    fun f hf => hnn f (List.mem_of_mem_take hf)
  have htake_eq : (frames.take i).map Prod.snd = (frames.map Prod.snd).take i :=
    List.map_take Prod.snd frames i
  have h1 : ((frames.take i).map Prod.snd).sum < 0.6 := by
    rw [htake_eq]
    exact lt_of_le_of_lt (sum_take_le _ hmapnn i) hsum
  have hbi : (play_frames ground_y_at obstacles (frames.take i) b).bump_cooldown
      = 0.6 - ((frames.take i).map Prod.snd).sum := by
    rw [play_frames_cd ground_y_at obstacles _ b htake_nn (by rw [hcd]; exact h1), hcd]
  have hilen : i < (frames.map Prod.snd).length := by simpa using hi
  have hsucc : ((frames.map Prod.snd).take (i + 1)).sum
      = ((frames.map Prod.snd).take i).sum + (frames.get ⟨i, hi⟩).2 := by
    rw [List.sum_take_succ _ i hilen]
    congr 1
    rw [List.getElem_map, List.get_eq_getElem]
  have hsucc_le : ((frames.map Prod.snd).take (i + 1)).sum ≤ (frames.map Prod.snd).sum :=
    sum_take_le _ hmapnn (i + 1)
  have hpos_i : 0 < (play_frames ground_y_at obstacles (frames.take i) b).bump_cooldown := by
    rw [hbi, htake_eq]
    have := lt_of_le_of_lt hsucc_le hsum
    rw [hsucc] at this
    have hdti : 0 ≤ (frames.get ⟨i, hi⟩).2 := hnn _ (frames.get_mem i hi)
    linarith
  have hpre := pre_handler_cd ground_y_at (frames.get ⟨i, hi⟩).1 (frames.get ⟨i, hi⟩).2
    (play_frames ground_y_at obstacles (frames.take i) b) hpos_i
  have hentry : 0 < (pre_handler ground_y_at (frames.get ⟨i, hi⟩).1 (frames.get ⟨i, hi⟩).2
      (play_frames ground_y_at obstacles (frames.take i) b)).bump_cooldown := by
    rw [hpre, hbi, htake_eq]
    have := lt_of_le_of_lt hsucc_le hsum
    rw [hsucc] at this
    linarith
  exact ⟨hentry, (handle_obstacles_cd_pos ground_y_at obstacles _ hentry).1,
    (handle_obstacles_cd_pos ground_y_at obstacles _ hentry).2⟩

/-- Concrete frame trace: 35 frames at exactly 60 Hz with no keys held
(35 frames of `1/60` seconds stay strictly inside the 0.6-second window). -/
def framesW : List (Keys × ℚ) := List.replicate 35 (⟨false, false⟩, 1/60)

/-- Concrete obstacle list with a rock at the bike's position. -/
def obsW : List Obstacle := [Obstacle.rock 0 10]

/-- Concrete bike immediately after a rock/log penalty (cooldown 0.6). -/
def bikeCd06 : Bike :=
  { name := "You", xw := 0, y := 434, vy := 0, speed := 50, bump_cooldown := 0.6 }

theorem framesW_len : 0 < framesW.length := by
  simp [framesW]

/-- Witness for C7: the window property applied at frame 0 of a concrete
35-frame 60 Hz run following a penalty. -/
theorem C7_cooldown_window_witness :
    0 < (pre_handler gy470 (framesW.get ⟨0, framesW_len⟩).1 (framesW.get ⟨0, framesW_len⟩).2
          (play_frames gy470 obsW (framesW.take 0) bikeCd06)).bump_cooldown ∧
    (Game.handle_obstacles gy470 obsW
        (pre_handler gy470 (framesW.get ⟨0, framesW_len⟩).1 (framesW.get ⟨0, framesW_len⟩).2
          (play_frames gy470 obsW (framesW.take 0) bikeCd06))).speed
      = (pre_handler gy470 (framesW.get ⟨0, framesW_len⟩).1 (framesW.get ⟨0, framesW_len⟩).2
          (play_frames gy470 obsW (framesW.take 0) bikeCd06)).speed ∧
    (Game.handle_obstacles gy470 obsW
        (pre_handler gy470 (framesW.get ⟨0, framesW_len⟩).1 (framesW.get ⟨0, framesW_len⟩).2
          (play_frames gy470 obsW (framesW.take 0) bikeCd06))).bump_cooldown
      = (pre_handler gy470 (framesW.get ⟨0, framesW_len⟩).1 (framesW.get ⟨0, framesW_len⟩).2
          (play_frames gy470 obsW (framesW.take 0) bikeCd06)).bump_cooldown := by
  refine C7_cooldown_window gy470 obsW framesW bikeCd06 rfl ?_ ?_ 0 framesW_len
  · intro f hf
    simp only [framesW, List.mem_replicate] at hf
    rw [hf.2]
    norm_num
  · have hmap : framesW.map Prod.snd = List.replicate 35 (1/60 : ℚ) := by
      simp [framesW]
    rw [hmap, List.sum_replicate]
    rw [nsmul_eq_mul]
    norm_num

/-- The three entities of the end-of-race scenario, with their finish times. -/
def bikes_scenario : List Bike :=
  [ { name := "You", finish_time := some 12 },
    { name := "Bot 1", finish_time := some 11.5 },
    { name := "Bot 2", finish_time := some 13 } ]

/-- C5: at the transition into End, the ranked results list is sorted
ascending by scored time, where an entity lacking a finish time is scored at
the race's current elapsed time; the race count is incremented by exactly
one, and the win count is incremented iff rank 0 of the list carries the
player's name "You".  For the concrete times 12.0 ("You"), 11.5 ("Bot 1"),
13.0 ("Bot 2") the ranking is [Bot 1, You, Bot 2] and the win count stays
unchanged. -/
theorem C5_end_race_ranking :
    (∀ time_elapsed bikes, List.Sorted timeLe (end_race_results time_elapsed bikes)) ∧
    (∀ results total_races wins,
      (end_race_stats results total_races wins).1 = total_races + 1) ∧
    (∀ results total_races wins,
      ((end_race_stats results total_races wins).2 = wins + 1 ↔
        results.head?.map Prod.fst = some "You")) ∧
    end_race_results 20 bikes_scenario
      = [("Bot 1", 11.5), ("You", 12), ("Bot 2", 13)] ∧
    (end_race_stats (end_race_results 20 bikes_scenario) 7 4).2 = 4 := by
  refine ⟨?_, ?_, ?_, ?_, ?_⟩
  · intro time_elapsed bikes
    exact List.sorted_insertionSort timeLe _
  · intro results total_races wins
    rfl
  · intro results total_races wins
    unfold end_race_stats
    dsimp only
    cases results with
    | nil =>
        simp only [List.head?, Option.map_none]
        constructor
        · intro h
          exact absurd h (by omega)
        · intro h
          exact Option.noConfusion h
    | cons nt rest =>
        simp only [List.head?]
        by_cases hn : nt.1 = "You"
        · rw [if_pos hn]
          simp [hn]
        · rw [if_neg hn]
          constructor
          · intro h
            exact absurd h (by omega)
          · intro h
            simp only [Option.map_some'] at h
            exact absurd (Option.some_injective _ h) hn
  · norm_num [end_race_results, bikes_scenario, timeLe]
  · have hres : end_race_results 20 bikes_scenario
        = [("Bot 1", 11.5), ("You", 12), ("Bot 2", 13)] := by
      norm_num [end_race_results, bikes_scenario, timeLe]
    rw [hres]
    unfold end_race_stats
    simp only [List.head?]
    rw [if_neg (by decide)]

/-- C6: obstacle generation is a pure function of the seed — two runs with
equal seeds produce identical obstacle lists (same tags, positions and sizes
in the same order) — and every generated list is sorted ascending by
position. -/
theorem C6_spawn_deterministic_sorted (s1 s2 : ℕ) (hs : s1 = s2) :
    spawn_obstacles s1 = spawn_obstacles s2 ∧
    List.Sorted obLe (spawn_obstacles s1) := by
  subst hs
  refine ⟨rfl, ?_⟩
  unfold spawn_obstacles
  dsimp only
  exact List.sorted_insertionSort obLe _

/-- Witness for C6 at the seed 1337 used by `Game.spawn_obstacles`. -/
theorem C6_spawn_deterministic_sorted_witness :
    spawn_obstacles 1337 = spawn_obstacles 1337 ∧
    List.Sorted obLe (spawn_obstacles 1337) :=
  C6_spawn_deterministic_sorted 1337 1337 rfl

/-- C10: if every already-finished entity carries a finish time (true for
all bikes created by `start_race` and preserved by every update), then
whenever the race-over test succeeds on the entity list just marked by the
finish pass, every entity in that marked list is finished and has a non-None
finish time — so `end_race`'s fallback that scores an entity at the current
elapsed time can never fire. -/
theorem C10_no_fallback (time_elapsed : ℚ) (bikes : List Bike)
    (hinv : ∀ b ∈ bikes, b.finished = true → b.finish_time.isSome = true)
    (hdone : race_done (mark_finish time_elapsed bikes) = true) :
    ∀ b ∈ mark_finish time_elapsed bikes, b.finished = true ∧ b.finish_time ≠ none := by
  intro b hb
  simp only [mark_finish, List.mem_map] at hb
  obtain ⟨a, ha, rfl⟩ := hb
  by_cases haf : a.finished = true
  · have hfc : finish_check time_elapsed a = a := by
      unfold finish_check
      rw [if_neg]
      rintro ⟨hna, -⟩
      exact hna haf
    rw [hfc]
    refine ⟨haf, ?_⟩
    have hsome := hinv a ha haf
    intro hnone
    rw [hnone] at hsome
    simp at hsome
  · by_cases hxl : TRACK_LENGTH ≤ a.xw
    · have hfc : finish_check time_elapsed a =
          { a with finished := true, finish_time := some time_elapsed } := by
        unfold finish_check
        rw [if_pos ⟨haf, hxl⟩]
      rw [hfc]
      exact ⟨rfl, by simp⟩
    · exfalso
      have hfc : finish_check time_elapsed a = a := by
        unfold finish_check
        rw [if_neg]
        rintro ⟨-, hcl⟩
        exact hxl hcl
      have hmem : finish_check time_elapsed a ∈ mark_finish time_elapsed bikes := by
        simp only [mark_finish, List.mem_map]
        exact ⟨a, ha, rfl⟩
      rw [race_done, List.all_eq_true] at hdone
      have hgate := hdone _ hmem
      rw [hfc] at hgate
      simp [haf, hxl] at hgate

/-- Concrete finished player used by the C10 witness. -/
def bikeA : Bike := { name := "You", xw := 3700, finished := true, finish_time := some 9 }

/-- Concrete bot past the line but not yet marked, used by the C10 witness. -/
def bikeB : Bike := { name := "Bot 1", xw := 3650 }

/-- Witness for C10 at a two-entity list in the frame where the race ends. -/
theorem C10_no_fallback_witness :
    (finish_check 20 bikeA).finished = true ∧ (finish_check 20 bikeA).finish_time ≠ none := by
  refine C10_no_fallback 20 [bikeA, bikeB] ?_ ?_ (finish_check 20 bikeA) ?_
  · intro b hb hbf
    rcases List.mem_cons.mp hb with rfl | hb2
    · rfl
    · rcases List.mem_cons.mp hb2 with rfl | hb3
      · exact Bool.noConfusion hbf
      · exact absurd hb3 (List.not_mem_nil b)
  · norm_num [race_done, mark_finish, finish_check, bikeA, bikeB, TRACK_LENGTH]
  · simp [mark_finish]
